import Mathlib

/-!
Shallow embedding of the Ralph dashboard's real-time change-notification
pipeline: the FileWatcher service (chokidar-based directory watcher,
path classifier, per-path debouncer) and the WebSocketHub service
(connection registry, subscribe/unsubscribe/ping protocol, broadcast
router, heartbeat monitor).

JavaScript Maps are embedded as association lists with JS Map semantics
(insertion order, in-place update on re-set); JS Sets of strings as
insertion-ordered duplicate-free lists; JSON values as an inductive type.
Wall-clock time is a natural number of milliseconds.
-/

namespace Ralph

/-! ## JS Map model (association lists with Map.set / Map.delete semantics) -/

namespace JsMap

variable {α : Type}

/-- Models JS Map.get: the value stored at key k, if any. -/
def lookup (k : String) : List (String × α) → Option α
  | [] => none
  | (k', v) :: rest => if k' = k then some v else lookup k rest

/-- Models JS Map.set: update the existing entry in place, else append. -/
def set (k : String) (v : α) : List (String × α) → List (String × α)
  | [] => [(k, v)]
  | (k', v') :: rest => if k' = k then (k, v) :: rest else (k', v') :: set k v rest

/-- Models JS Map.delete: remove the entry with key k. -/
def erase (k : String) (m : List (String × α)) : List (String × α) :=
  m.filter (fun e => e.1 ≠ k)

/-- The keys of the map, in insertion order. -/
def keys (m : List (String × α)) : List String :=
  m.map Prod.fst

theorem lookup_set_self (k : String) (v : α) (m : List (String × α)) :
    lookup k (set k v m) = some v := by
  induction m with
  | nil => simp [set, lookup]
  | cons e rest ih =>
    by_cases h : e.1 = k
    · simp [set, h, lookup]
    · simp [set, h, lookup, ih]

theorem lookup_set_ne (k k' : String) (v : α) (m : List (String × α)) (h : k ≠ k') :
    lookup k' (set k v m) = lookup k' m := by
  induction m with
  | nil => simp [set, lookup, h]
  | cons e rest ih =>
    by_cases he : e.1 = k
    · simp [set, he, lookup, h]
    · simp [set, he, lookup, ih]

theorem set_lookup_self (k : String) (v : α) (m : List (String × α))
    (h : lookup k m = some v) : set k v m = m := by
  induction m with
  | nil => simp [lookup] at h
  | cons e rest ih =>
    obtain ⟨k', v'⟩ := e
    by_cases he : k' = k
    · subst he
      simp [lookup] at h
      simp [set, h]
    · simp [lookup, he] at h
      simp [set, he, ih h]

theorem keys_set (k : String) (v : α) (m : List (String × α)) :
    keys (set k v m) = if k ∈ keys m then keys m else keys m ++ [k] := by
  induction m with
  | nil => simp [set, keys]
  | cons e rest ih =>
    obtain ⟨k', v'⟩ := e
    simp only [keys, List.map_cons] at ih ⊢
    by_cases he : k' = k
    · subst he
      simp [set]
    · by_cases hk : k ∈ List.map Prod.fst rest
      · simp [set, he, ih, hk, Ne.symm he]
      · simp [set, he, ih, hk, Ne.symm he]

theorem keys_set_nodup (k : String) (v : α) (m : List (String × α))
    (h : (keys m).Nodup) : (keys (set k v m)).Nodup := by
  rw [keys_set]
  by_cases hk : k ∈ keys m
  · simpa [hk] using h
  · simp only [hk, if_false]
    rw [List.nodup_append]
    refine ⟨h, List.nodup_singleton k, ?_⟩
    intro a ha hb
    simp at hb
    subst hb
    exact hk ha

theorem keys_erase_nodup (k : String) (m : List (String × α))
    (h : (keys m).Nodup) : (keys (erase k m)).Nodup := by
  have hs : List.Sublist (keys (erase k m)) (keys m) :=
    List.Sublist.map Prod.fst (List.filter_sublist m)
  exact List.Nodup.sublist hs h

theorem mem_set (x : String × α) (k : String) (v : α) (m : List (String × α))
    (h : x ∈ set k v m) : x = (k, v) ∨ x ∈ m := by
  induction m with
  | nil => simpa [set] using h
  | cons e rest ih =>
    by_cases he : e.1 = k
    · simp [set, he] at h
      rcases h with h | h
      · exact Or.inl h
      · exact Or.inr (List.mem_cons_of_mem _ h)
    · simp [set, he] at h
      rcases h with h | h
      · exact Or.inr (by simp [h])
      · rcases ih h with h' | h'
        · exact Or.inl h'
        · exact Or.inr (List.mem_cons_of_mem _ h')

theorem mem_erase (x : String × α) (k : String) (m : List (String × α))
    (h : x ∈ erase k m) : x ∈ m :=
  (List.filter_sublist m).subset h

theorem lookup_eq_some_mem (k : String) (v : α) (m : List (String × α))
    (h : lookup k m = some v) : (k, v) ∈ m := by
  induction m with
  | nil => simp [lookup] at h
  | cons e rest ih =>
    obtain ⟨k', v'⟩ := e
    by_cases he : k' = k
    · subst he
      simp [lookup] at h
      simp [h]
    · simp [lookup, he] at h
      exact List.mem_cons_of_mem _ (ih h)

theorem lookup_isSome_of_mem_keys (k : String) (m : List (String × α))
    (h : k ∈ keys m) : (lookup k m).isSome := by
  induction m with
  | nil => simp [keys] at h
  | cons e rest ih =>
    obtain ⟨k', v'⟩ := e
    by_cases he : k' = k
    · simp [lookup, he]
    · simp only [keys, List.map_cons, List.mem_cons] at h
      rcases h with h | h
      · exact absurd h.symm he
      · simpa [lookup, he] using ih h

theorem lookup_eq_none_of_not_mem_keys (k : String) (m : List (String × α))
    (h : k ∉ keys m) : lookup k m = none := by
  induction m with
  | nil => simp [lookup]
  | cons e rest ih =>
    obtain ⟨k', v'⟩ := e
    simp only [keys, List.map_cons, List.mem_cons] at h
    push_neg at h
    simp only [lookup]
    rw [if_neg (fun hh => h.1 hh.symm)]
    exact ih h.2

end JsMap

/-! ## JS string operations and path helpers -/

/-- Models JS String.prototype.startsWith(search) on the receiver s. -/
def jsStartsWith (s search : String) : Bool :=
  List.isPrefixOf search.data s.data

/-- Models JS String.prototype.endsWith(search) on the receiver s. -/
def jsEndsWith (s search : String) : Bool :=
  List.isSuffixOf search.data s.data

/-- Models the replace(..backslash-regex.., slash) post-processing step that the
watcher applies to every path: each backslash character becomes a forward slash. -/
def replaceBackslashes (s : String) : String :=
  ⟨s.data.map (fun c => if c = '\\' then '/' else c)⟩

/-- Models Node path.normalize composed with the backslash replacement, for the
POSIX-style already-normalized paths that chokidar delivers (no dot segments and
no duplicate separators to collapse, so normalize itself is the identity there). -/
def normalizePath (s : String) : String :=
  replaceBackslashes s

/-- Models Node path.relative(projectPath, filePath) for the case the watcher
exercises: filePath lies strictly below projectPath, so the result is filePath
with the projectPath prefix and the separator stripped. -/
def relativeTo (root fp : String) : String :=
  if List.isPrefixOf (root ++ "/").data fp.data then
    ⟨fp.data.drop (root ++ "/").data.length⟩
  else
    fp

/-! ## File types and the classifier -/

/-- File type categories for watched files (the FileType union in the source). -/
inductive FileType where
  | prd
  | progress
  | activity
  | errors
  | guardrails
  | run
  | unknown
deriving DecidableEq, Repr

/-- Raw filesystem event kinds (add | change | unlink). -/
inductive EventKind where
  | add
  | change
  | unlink
deriving DecidableEq, Repr

/-- FileWatcher.getFileType: determine the file type from the path relative to
the project root, checking the fixed pattern table in priority order. -/
def getFileType (projectPath filePath : String) : FileType :=
  let relativePath := replaceBackslashes (relativeTo projectPath filePath)
  if jsStartsWith relativePath ".agents/tasks/" && jsEndsWith relativePath ".json" then
    FileType.prd
  else if relativePath = ".ralph/progress.md" then
    FileType.progress
  else if relativePath = ".ralph/activity.log" then
    FileType.activity
  else if relativePath = ".ralph/errors.log" then
    FileType.errors
  else if relativePath = ".ralph/guardrails.md" then
    FileType.guardrails
  else if jsStartsWith relativePath ".ralph/runs/" then
    FileType.run
  else
    FileType.unknown

/-- DEBOUNCE_TIMES: debounce window in milliseconds per file type. -/
def DEBOUNCE_TIMES : FileType → Nat
  | FileType.prd => 500
  | FileType.progress => 500
  | FileType.guardrails => 500
  | FileType.activity => 100
  | FileType.errors => 100
  | FileType.run => 100
  | FileType.unknown => 500

theorem isPrefixOf_append (l₁ l₂ : List Char) : List.isPrefixOf l₁ (l₁ ++ l₂) = true := by
  induction l₁ with
  | nil => simp [List.isPrefixOf]
  | cons c rest ih => simp [List.isPrefixOf, ih]

theorem relativeTo_under_root (root rel : String) :
    relativeTo root (root ++ "/" ++ rel) = rel := by
  unfold relativeTo
  have hdata : (root ++ "/" ++ rel).data = (root ++ "/").data ++ rel.data := by
    simp [String.data_append]
  rw [hdata, isPrefixOf_append, if_pos rfl]
  rw [List.drop_left]

theorem map_of_no_backslash (l : List Char) (h : ∀ c ∈ l, c ≠ '\\') :
    l.map (fun c => if c = '\\' then '/' else c) = l := by
  induction l with
  | nil => rfl
  | cons c cs ih =>
    simp only [List.map_cons]
    rw [if_neg (h c (List.mem_cons_self c cs)),
      ih (fun d hd => h d (List.mem_cons_of_mem c hd))]

theorem replaceBackslashes_id (s : String) (h : ∀ c ∈ s.data, c ≠ '\\') :
    replaceBackslashes s = s := by
  unfold replaceBackslashes
  rw [map_of_no_backslash s.data h]

theorem isPrefixOf_comparable (l₁ l₂ l : List Char)
    (h₁ : List.isPrefixOf l₁ l = true) (h₂ : List.isPrefixOf l₂ l = true) :
    List.isPrefixOf l₁ l₂ = true ∨ List.isPrefixOf l₂ l₁ = true := by
  induction l generalizing l₁ l₂ with
  | nil =>
    cases l₁ <;> cases l₂ <;> simp_all [List.isPrefixOf]
  | cons c cs ih =>
    cases l₁ with
    | nil =>
      left
      simp [List.isPrefixOf]
    | cons a as =>
      cases l₂ with
      | nil =>
        right
        simp [List.isPrefixOf]
      | cons b bs =>
        simp only [List.isPrefixOf, Bool.and_eq_true, beq_iff_eq] at h₁ h₂ ⊢
        obtain ⟨ha, has⟩ := h₁
        obtain ⟨hbb, hbs⟩ := h₂
        rcases ih as bs has hbs with h | h
        · exact Or.inl ⟨ha.trans hbb.symm, h⟩
        · exact Or.inr ⟨hbb.trans ha.symm, h⟩

theorem jsStartsWith_conflict (rel : String)
    (h₁ : jsStartsWith rel ".agents/tasks/" = true)
    (h₂ : jsStartsWith rel ".ralph/runs/" = true) : False := by
  unfold jsStartsWith at h₁ h₂
  rcases isPrefixOf_comparable _ _ _ h₁ h₂ with h | h
  · exact absurd h (by decide)
  · exact absurd h (by decide)

theorem jsStartsWith_of_eq (rel pat : String) (h : rel = pat) :
    jsStartsWith rel pat = true := by
  subst h
  unfold jsStartsWith
  have hp := isPrefixOf_append rel.data []
  rwa [List.append_nil] at hp

/-- C5: the classifier is a deterministic, I/O-free function of (rootPath,
absolute changed path): it computes the path relative to rootPath and matches
it in the fixed priority order against the fixed pattern table
(.agents/tasks/*.json -> prd, .ralph/progress.md -> progress,
.ralph/activity.log -> activity, .ralph/errors.log -> errors,
.ralph/guardrails.md -> guardrails, .ralph/runs/* -> run), and every path
matching no pattern maps to the fallback tag unknown.  Stated as an exact
characterization of each returned tag by its pattern, for a changed path
lying under the root. -/
theorem getFileType_pattern_table (root rel : String) (hb : ∀ c ∈ rel.data, c ≠ '\\') :
    (getFileType root (root ++ "/" ++ rel) = FileType.prd ↔
        (jsStartsWith rel ".agents/tasks/" && jsEndsWith rel ".json") = true) ∧
    (getFileType root (root ++ "/" ++ rel) = FileType.progress ↔ rel = ".ralph/progress.md") ∧
    (getFileType root (root ++ "/" ++ rel) = FileType.activity ↔ rel = ".ralph/activity.log") ∧
    (getFileType root (root ++ "/" ++ rel) = FileType.errors ↔ rel = ".ralph/errors.log") ∧
    (getFileType root (root ++ "/" ++ rel) = FileType.guardrails ↔ rel = ".ralph/guardrails.md") ∧
    (getFileType root (root ++ "/" ++ rel) = FileType.run ↔ jsStartsWith rel ".ralph/runs/" = true) ∧
    (getFileType root (root ++ "/" ++ rel) = FileType.unknown ↔
        ¬ ((jsStartsWith rel ".agents/tasks/" && jsEndsWith rel ".json") = true) ∧
        rel ≠ ".ralph/progress.md" ∧ rel ≠ ".ralph/activity.log" ∧
        rel ≠ ".ralph/errors.log" ∧ rel ≠ ".ralph/guardrails.md" ∧
        ¬ (jsStartsWith rel ".ralph/runs/" = true)) := by
  have hrel : replaceBackslashes (relativeTo root (root ++ "/" ++ rel)) = rel := by
    rw [relativeTo_under_root]
    exact replaceBackslashes_id rel hb
  simp only [getFileType, hrel]
  split_ifs with h1 h2 h3 h4 h5 h6
  · have h1a : jsStartsWith rel ".agents/tasks/" = true := by
      rw [Bool.and_eq_true] at h1
      exact h1.1
    have n2 : rel ≠ ".ralph/progress.md" := fun h => by subst h; exact absurd h1 (by decide)
    have n3 : rel ≠ ".ralph/activity.log" := fun h => by subst h; exact absurd h1 (by decide)
    have n4 : rel ≠ ".ralph/errors.log" := fun h => by subst h; exact absurd h1 (by decide)
    have n5 : rel ≠ ".ralph/guardrails.md" := fun h => by subst h; exact absurd h1 (by decide)
    have n6 : ¬ (jsStartsWith rel ".ralph/runs/" = true) := fun h =>
      jsStartsWith_conflict rel h1a h
    simp [h1, n2, n3, n4, n5, n6]
  · subst h2
    revert h1
    decide
  · subst h3
    revert h1 h2
    decide
  · subst h4
    revert h1 h2 h3
    decide
  · subst h5
    revert h1 h2 h3 h4
    decide
  · have n2 : rel ≠ ".ralph/progress.md" := fun h => by subst h; exact absurd h6 (by decide)
    have n3 : rel ≠ ".ralph/activity.log" := fun h => by subst h; exact absurd h6 (by decide)
    have n4 : rel ≠ ".ralph/errors.log" := fun h => by subst h; exact absurd h6 (by decide)
    have n5 : rel ≠ ".ralph/guardrails.md" := fun h => by subst h; exact absurd h6 (by decide)
    simp [h1, h6, n2, n3, n4, n5]
  · simp [h1, h2, h3, h4, h5, h6]

/-- Witness for the classifier characterization: instantiated at a concrete
root and relative path, every pattern of the table resolves as stated. -/
theorem getFileType_pattern_table_witness :
    getFileType "/home/p" ("/home/p" ++ "/" ++ ".ralph/runs/out.log") = FileType.run :=
  ((getFileType_pattern_table "/home/p" ".ralph/runs/out.log"
    (by decide)).2.2.2.2.2.1).mpr (by decide)

/-! ## The debouncer and the watcher state

Each raw chokidar callback and each debounce-timer firing runs to completion
on the single event loop, so the watcher is embedded as a state machine whose
steps are these callbacks.  A pending setTimeout handle is embedded as its
absolute deadline (creation time plus debounce window) together with the
fileType and eventKind the timer closure captured; cancelling the timer and
dropping the map entry coincide. -/

/-- Change event emitted by the file watcher (FileChangeEvent). -/
structure FileChangeEvent where
  projectId : String
  fileType : FileType
  path : String
  event : EventKind
deriving DecidableEq, Repr

/-- A pending debounce timer: absolute fire deadline plus the fileType and
eventKind captured by the setTimeout closure of handleFileEvent. -/
structure PendingTimer where
  deadline : Nat
  fileType : FileType
  event : EventKind
deriving DecidableEq, Repr

/-- Project watcher state (ProjectWatcher): the chokidar handle itself is
external and carries no state the claims depend on. -/
structure ProjectWatcher where
  projectId : String
  projectPath : String
  debounceTimers : List (String × PendingTimer)
deriving DecidableEq, Repr

/-- FileWatcher.handleFileEvent at wall-clock time now: normalize the path,
classify it, clear any existing timer for the normalized path and (re)start a
timer for the type's debounce window. -/
def handleFileEvent (now : Nat) (pw : ProjectWatcher) (filePath : String)
    (event : EventKind) : ProjectWatcher :=
  let normalizedPath := normalizePath filePath
  let fileType := getFileType pw.projectPath normalizedPath
  let debounceTime := DEBOUNCE_TIMES fileType
  { pw with debounceTimers :=
      JsMap.set normalizedPath ⟨now + debounceTime, fileType, event⟩ pw.debounceTimers }

/-- The debounce-timer callback for one normalized path: delete the
pending-timer entry, then emit the ChangeEvent built from the captured
fileType and eventKind.  Firing a path with no pending entry is a no-op
(the timer was cancelled). -/
def fireTimer (pw : ProjectWatcher) (normalizedPath : String) :
    ProjectWatcher × Option FileChangeEvent :=
  match JsMap.lookup normalizedPath pw.debounceTimers with
  | none => (pw, none)
  | some t =>
      ({ pw with debounceTimers := JsMap.erase normalizedPath pw.debounceTimers },
       some ⟨pw.projectId, t.fileType, normalizedPath, t.event⟩)

/-- Fire every pending timer whose deadline has been reached by time now, in
map order, returning the emitted ChangeEvents. -/
def fireDue (now : Nat) (pw : ProjectWatcher) : ProjectWatcher × List FileChangeEvent :=
  ({ pw with debounceTimers := pw.debounceTimers.filter (fun e => ¬ e.2.deadline ≤ now) },
   (pw.debounceTimers.filter (fun e => e.2.deadline ≤ now)).map
     (fun e => ⟨pw.projectId, e.2.fileType, e.1, e.2.event⟩))

/-- Deterministic event-loop run of one project's debouncer: raw events arrive
at nondecreasing timestamps; before each raw callback every timer whose
deadline has passed fires, and at endTime every timer due by then fires. -/
def runDeb (pw : ProjectWatcher) (inputs : List (Nat × String × EventKind))
    (endTime : Nat) : ProjectWatcher × List FileChangeEvent :=
  match inputs with
  | [] => fireDue endTime pw
  | (t, p, k) :: rest =>
      let fired := fireDue t pw
      let next := runDeb (handleFileEvent t fired.1 p k) rest endTime
      (next.1, fired.2 ++ next.2)

/-- The FileWatcher's own state: the Map of ProjectWatchers keyed by projectId. -/
structure FileWatcherState where
  watchers : List (String × ProjectWatcher)
deriving DecidableEq, Repr

/-- FileWatcher.watchProject: if already watching return true; if the project
path does not exist (existsSync, supplied as the external fsExists oracle)
return false; otherwise register a fresh ProjectWatcher with an empty
debounce-timer map and return true. -/
def watchProject (fsExists : String → Bool) (st : FileWatcherState)
    (projectId projectPath : String) : Bool × FileWatcherState :=
  if (JsMap.lookup projectId st.watchers).isSome then
    (true, st)
  else if fsExists projectPath = false then
    (false, st)
  else
    (true, ⟨JsMap.set projectId ⟨projectId, projectPath, []⟩ st.watchers⟩)

/-- FileWatcher.unwatchProject: if not watching return false; otherwise clear
all pending debounce timers, close the chokidar handle (external) and remove
the map entry. -/
def unwatchProject (st : FileWatcherState) (projectId : String) :
    Bool × FileWatcherState :=
  match JsMap.lookup projectId st.watchers with
  | none => (false, st)
  | some _ => (true, ⟨JsMap.erase projectId st.watchers⟩)

/-- FileWatcher.isWatching. -/
def isWatching (st : FileWatcherState) (projectId : String) : Bool :=
  (JsMap.lookup projectId st.watchers).isSome

/-- The event-loop callbacks that mutate FileWatcher state. -/
inductive WatcherOp where
  | watch (fsExists : String → Bool) (projectId projectPath : String)
  | unwatch (projectId : String)
  | raw (now : Nat) (projectId filePath : String) (event : EventKind)
  | fire (projectId normalizedPath : String)

/-- Apply one callback to the watcher state.  Raw events and timer firings for
a project that is no longer watched are dropped (its chokidar handle is closed
and its timers were cancelled on unwatch). -/
def applyOp (st : FileWatcherState) : WatcherOp → FileWatcherState
  | WatcherOp.watch f pid path => (watchProject f st pid path).2
  | WatcherOp.unwatch pid => (unwatchProject st pid).2
  | WatcherOp.raw now pid fp ev =>
      match JsMap.lookup pid st.watchers with
      | none => st
      | some pw => ⟨JsMap.set pid (handleFileEvent now pw fp ev) st.watchers⟩
  | WatcherOp.fire pid np =>
      match JsMap.lookup pid st.watchers with
      | none => st
      | some pw => ⟨JsMap.set pid (fireTimer pw np).1 st.watchers⟩

/-- Apply a sequence of callbacks starting from a state. -/
def applyOps (st : FileWatcherState) (ops : List WatcherOp) : FileWatcherState :=
  ops.foldl applyOp st

/-- The invariant of claim C8: at most one ProjectWatch per projectId and at
most one pending debounce timer per normalized path, expressed as key
uniqueness of the two maps. -/
def WatcherInv (st : FileWatcherState) : Prop :=
  (JsMap.keys st.watchers).Nodup ∧
  ∀ e ∈ st.watchers, (JsMap.keys e.2.debounceTimers).Nodup

/-- The debounce window handleFileEvent selects for raw path p under root. -/
def debWindow (root p : String) : Nat :=
  DEBOUNCE_TIMES (getFileType root (normalizePath p))

theorem runDeb_burst_aux (pid root p : String) (t₀ : Nat) (k₀ : EventKind)
    (evs : List (Nat × EventKind)) (endTime : Nat)
    (hchain : List.Chain' (fun a b => a.1 ≤ b.1 ∧ b.1 < a.1 + debWindow root p) ((t₀, k₀) :: evs))
    (hend : (List.getLastD evs (t₀, k₀)).1 + debWindow root p ≤ endTime) :
    runDeb ⟨pid, root, [(normalizePath p,
        ⟨t₀ + debWindow root p, getFileType root (normalizePath p), k₀⟩)]⟩
        (evs.map (fun e => (e.1, p, e.2))) endTime
      = (⟨pid, root, []⟩,
         [⟨pid, getFileType root (normalizePath p), normalizePath p,
           (List.getLastD evs (t₀, k₀)).2⟩]) := by
  induction evs generalizing t₀ k₀ with
  | nil =>
    simp only [List.getLastD] at hend ⊢
    simp [runDeb, fireDue, hend]
  | cons e rest ih =>
    obtain ⟨t₁, k₁⟩ := e
    rw [List.chain'_cons] at hchain
    obtain ⟨⟨hle, hlt⟩, hchain'⟩ := hchain
    have hlt' : t₁ < t₀ + debWindow root p := hlt
    rw [List.getLastD_cons] at hend
    simp only [List.map_cons, runDeb, List.getLastD_cons]
    have h1 : fireDue t₁ ⟨pid, root, [(normalizePath p,
        ⟨t₀ + debWindow root p, getFileType root (normalizePath p), k₀⟩)]⟩
        = (⟨pid, root, [(normalizePath p,
        ⟨t₀ + debWindow root p, getFileType root (normalizePath p), k₀⟩)]⟩, []) := by
      simp [fireDue, Nat.not_le, hlt']
    have h2 : handleFileEvent t₁ ⟨pid, root, [(normalizePath p,
        ⟨t₀ + debWindow root p, getFileType root (normalizePath p), k₀⟩)]⟩ p k₁
        = ⟨pid, root, [(normalizePath p,
        ⟨t₁ + debWindow root p, getFileType root (normalizePath p), k₁⟩)]⟩ := by
      simp [handleFileEvent, JsMap.set, debWindow]
    rw [h1, h2, ih t₁ k₁ hchain' hend]
    simp

/-- C1: for every burst of N >= 1 raw filesystem events on the same normalized
path within one debounce window (each raw event arrives before the pending
timer's deadline), the debouncer emits exactly one ChangeEvent once the
window for that path's tag elapses with no intervening raw event, the event's
eventKind is the kind of the last raw event of the burst, and the
pending-timer entry for the path is cleared on fire. -/
theorem debounce_burst (pid root p : String) (e₀ : Nat × EventKind)
    (rest : List (Nat × EventKind)) (endTime : Nat)
    (hchain : List.Chain' (fun a b => a.1 ≤ b.1 ∧ b.1 < a.1 + debWindow root p) (e₀ :: rest))
    (hend : (List.getLastD rest e₀).1 + debWindow root p ≤ endTime) :
    runDeb ⟨pid, root, []⟩ ((e₀ :: rest).map (fun e => (e.1, p, e.2))) endTime
      = (⟨pid, root, []⟩,
         [⟨pid, getFileType root (normalizePath p), normalizePath p,
           (List.getLastD rest e₀).2⟩]) := by
  obtain ⟨t₀, k₀⟩ := e₀
  simp only [List.map_cons, runDeb]
  have h1 : fireDue t₀ (⟨pid, root, []⟩ : ProjectWatcher) = (⟨pid, root, []⟩, []) := by
    simp [fireDue]
  have h2 : handleFileEvent t₀ ⟨pid, root, []⟩ p k₀
      = ⟨pid, root, [(normalizePath p,
        ⟨t₀ + debWindow root p, getFileType root (normalizePath p), k₀⟩)]⟩ := by
    simp [handleFileEvent, JsMap.set, debWindow]
  rw [h1, h2, runDeb_burst_aux pid root p t₀ k₀ rest endTime hchain hend]
  simp

/-- Witness for the debounce-burst theorem: a concrete two-event burst on the
activity log (window 100 ms) coalesces into one change event carrying the
last kind. -/
theorem debounce_burst_witness :
    runDeb ⟨"p1", "/r", []⟩
        (([(0, EventKind.add), (50, EventKind.change)] : List (Nat × EventKind)).map
          (fun e => (e.1, "/r/.ralph/activity.log", e.2))) 1000
      = (⟨"p1", "/r", []⟩,
         [⟨"p1", getFileType "/r" (normalizePath "/r/.ralph/activity.log"),
           normalizePath "/r/.ralph/activity.log",
           (List.getLastD [(50, EventKind.change)] (0, EventKind.add)).2⟩]) ∧
    getFileType "/r" (normalizePath "/r/.ralph/activity.log") = FileType.activity :=
  ⟨debounce_burst "p1" "/r" "/r/.ralph/activity.log" (0, EventKind.add)
      [(50, EventKind.change)] 1000
      (by
        rw [List.chain'_cons]
        exact ⟨⟨by decide, by decide⟩, List.chain'_singleton _⟩)
      (by decide), by decide⟩

theorem watcherInv_applyOp (st : FileWatcherState) (op : WatcherOp)
    (h : WatcherInv st) : WatcherInv (applyOp st op) := by
  obtain ⟨hkeys, htimers⟩ := h
  cases op with
  | watch f pid path =>
    simp only [applyOp, watchProject]
    split_ifs with h1 h2
    · exact ⟨hkeys, htimers⟩
    · exact ⟨hkeys, htimers⟩
    · constructor
      · exact JsMap.keys_set_nodup pid _ st.watchers hkeys
      · intro e he
        rcases JsMap.mem_set e pid _ st.watchers he with h' | h'
        · subst h'
          simp [JsMap.keys]
        · exact htimers e h'
  | unwatch pid =>
    simp only [applyOp, unwatchProject]
    cases hl : JsMap.lookup pid st.watchers with
    | none => exact ⟨hkeys, htimers⟩
    | some pw =>
      constructor
      · exact JsMap.keys_erase_nodup pid st.watchers hkeys
      · intro e he
        exact htimers e (JsMap.mem_erase e pid st.watchers he)
  | raw now pid fp ev =>
    simp only [applyOp]
    cases hl : JsMap.lookup pid st.watchers with
    | none => exact ⟨hkeys, htimers⟩
    | some pw =>
      constructor
      · exact JsMap.keys_set_nodup pid _ st.watchers hkeys
      · intro e he
        rcases JsMap.mem_set e pid _ st.watchers he with h' | h'
        · subst h'
          have hpw := htimers _ (JsMap.lookup_eq_some_mem pid pw st.watchers hl)
          simpa [handleFileEvent] using
            JsMap.keys_set_nodup (normalizePath fp) _ pw.debounceTimers hpw
        · exact htimers e h'
  | fire pid np =>
    simp only [applyOp]
    cases hl : JsMap.lookup pid st.watchers with
    | none => exact ⟨hkeys, htimers⟩
    | some pw =>
      constructor
      · exact JsMap.keys_set_nodup pid _ st.watchers hkeys
      · intro e he
        rcases JsMap.mem_set e pid _ st.watchers he with h' | h'
        · subst h'
          have hpw := htimers _ (JsMap.lookup_eq_some_mem pid pw st.watchers hl)
          cases hl2 : JsMap.lookup np pw.debounceTimers with
          | none => simpa [fireTimer, hl2] using hpw
          | some t =>
            simpa [fireTimer, hl2] using JsMap.keys_erase_nodup np pw.debounceTimers hpw
        · exact htimers e h'

/-- C8: in every state reachable from the initial watcher state by any
sequence of callbacks (watch, unwatch, raw file-event handling, debounce-timer
firing), the file watcher holds at most one ProjectWatch per projectId and at
most one pending debounce timer per normalized path. -/
theorem watcher_invariant (ops : List WatcherOp) : WatcherInv (applyOps ⟨[]⟩ ops) := by
  have h0 : WatcherInv ⟨[]⟩ := by
    constructor
    · simp [JsMap.keys]
    · intro e he
      simp at he
  suffices h : ∀ st, WatcherInv st → WatcherInv (applyOps st ops) from h _ h0
  induction ops with
  | nil => intro st h; exact h
  | cons op rest ih =>
    intro st h
    exact ih _ (watcherInv_applyOp st op h)

/-- C6: unwatchProject on a project that is not being watched returns false
and changes no watcher state; once watchProject has returned true, calling it
again for the same projectId returns true and leaves the whole state (hence
the map entry for that projectId) unchanged, creating no duplicate watch. -/
theorem watch_unwatch_idempotent (f : String → Bool) (st : FileWatcherState)
    (pid path path' : String) :
    (isWatching st pid = false → unwatchProject st pid = (false, st)) ∧
    ((watchProject f st pid path).1 = true →
      watchProject f (watchProject f st pid path).2 pid path'
        = (true, (watchProject f st pid path).2)) := by
  constructor
  · intro h
    unfold unwatchProject
    cases hl : JsMap.lookup pid st.watchers with
    | none => rfl
    | some pw => simp [isWatching, hl] at h
  · intro h
    cases hl : JsMap.lookup pid st.watchers with
    | some pw => simp [watchProject, hl]
    | none =>
      cases hf : f path with
      | false => simp [watchProject, hl, hf] at h
      | true => simp [watchProject, hl, hf, JsMap.lookup_set_self]

/-- C9: if a projectId is already being watched, watchProject returns true
without consulting the filesystem-existence oracle at all (the result is the
same for every fsExists, including the one that reports every path missing):
the already-watching check precedes the existence check. -/
theorem watch_skips_existence_check (f : String → Bool) (st : FileWatcherState)
    (pid path : String) (h : isWatching st pid = true) :
    watchProject f st pid path = (true, st) := by
  unfold isWatching at h
  simp [watchProject, h]

/-- Witness for C9: a concrete already-watched project, with an oracle under
which no path exists. -/
theorem watch_skips_existence_check_witness :
    isWatching ⟨[("p1", ⟨"p1", "/r", []⟩)]⟩ "p1" = true ∧
    watchProject (fun _ => false) ⟨[("p1", ⟨"p1", "/r", []⟩)]⟩ "p1" "/gone"
      = (true, ⟨[("p1", ⟨"p1", "/r", []⟩)]⟩) :=
  ⟨by decide,
   watch_skips_existence_check (fun _ => false) ⟨[("p1", ⟨"p1", "/r", []⟩)]⟩ "p1" "/gone"
     (by decide)⟩

/-- Witness for C6 at concrete inputs: unwatch of an unwatched project, and a
double watch of the same project. -/
theorem watch_unwatch_idempotent_witness :
    unwatchProject ⟨[]⟩ "p1" = (false, ⟨[]⟩) ∧
    watchProject (fun _ => true) (watchProject (fun _ => true) ⟨[]⟩ "p1" "/r").2 "p1" "/r"
      = (true, (watchProject (fun _ => true) ⟨[]⟩ "p1" "/r").2) :=
  ⟨(watch_unwatch_idempotent (fun _ => true) ⟨[]⟩ "p1" "/r" "/r").1 (by decide),
   (watch_unwatch_idempotent (fun _ => true) ⟨[]⟩ "p1" "/r" "/r").2 (by decide)⟩

/-! ## The WebSocket hub: JSON values, messages, connection registry

A JSON.parse result is embedded as the inductive JVal; the raw incoming frame
is embedded as the parse outcome (malformed, or a value).  The ws transport
handle is reduced to the one bit the hub reads from it, readyState = OPEN.
Each ws callback (message, pong, close, heartbeat tick) runs to completion on
the event loop, so handlers are pure state transitions. -/

/-- A JavaScript value produced by JSON.parse. -/
inductive JVal where
  | nullv
  | bool (b : Bool)
  | num (n : Int)
  | str (s : String)
  | arr (elems : List JVal)
  | obj (fields : List (String × JVal))

/-- Messages the server sends to clients (ServerMessage).  The unsubscribed
echo carries the request's raw projectIds array as received. -/
inductive ServerMsg where
  | fileChange (projectId : String) (fileType : FileType) (path : String) (event : EventKind)
  | pong
  | error (message : String)
  | subscribed (projectIds : List String)
  | unsubscribed (projectIds : List JVal)

/-- Internal connection state (ConnectionState).  readyStateOpen embeds the
one fact the hub reads from the ws handle: readyState === OPEN. -/
structure ConnectionState where
  id : String
  subscribedProjects : List String
  lastPing : Nat
  isAlive : Bool
  readyStateOpen : Bool

/-- Models JS Set.prototype.add on a set of strings (insertion order kept,
no duplicates). -/
def setAdd (s : List String) (x : String) : List String :=
  if x ∈ s then s else s ++ [x]

/-- Models JS Set.prototype.delete on a set of strings. -/
def setDelete (s : List String) (x : String) : List String :=
  s.filter (fun y => y ≠ x)

/-- WebSocketHub.sendError: send an error message, but only when the
transport is still OPEN. -/
def sendError (c : ConnectionState) (message : String) : List ServerMsg :=
  if c.readyStateOpen then [ServerMsg.error message] else []

/-- WebSocketHub.handleSubscribe, receiving the message's projectIds field
(none embeds a missing field, i.e. undefined).  Array.isArray admits exactly
the arr case; each string element is added to the subscription set and every
other element is skipped; the confirmation carries the full resulting set. -/
def handleSubscribe (c : ConnectionState) (projectIds : Option JVal) :
    ConnectionState × List ServerMsg :=
  match projectIds with
  | some (JVal.arr xs) =>
      let subs := xs.foldl (fun acc v =>
        match v with
        | JVal.str s => setAdd acc s
        | _ => acc) c.subscribedProjects
      ({ c with subscribedProjects := subs }, [ServerMsg.subscribed subs])
  | _ => (c, sendError c "projectIds must be an array")

/-- WebSocketHub.handleUnsubscribe: delete each listed element from the set
(deleting a non-string or an absent id is a no-op) and echo the request's
projectIds list back. -/
def handleUnsubscribe (c : ConnectionState) (projectIds : Option JVal) :
    ConnectionState × List ServerMsg :=
  match projectIds with
  | some (JVal.arr xs) =>
      let subs := xs.foldl (fun acc v =>
        match v with
        | JVal.str s => setDelete acc s
        | _ => acc) c.subscribedProjects
      ({ c with subscribedProjects := subs }, [ServerMsg.unsubscribed xs])
  | _ => (c, sendError c "projectIds must be an array")

/-- WebSocketHub.handlePing: refresh the liveness proof and answer pong. -/
def handlePing (now : Nat) (c : ConnectionState) : ConnectionState × List ServerMsg :=
  ({ c with lastPing := now, isAlive := true }, [ServerMsg.pong])

/-- JS property access v.k on a JSON.parse result: objects yield the field
(none embeds undefined for an absent key), primitives and arrays yield
undefined, and access on null throws. -/
def jsField : JVal → String → Except Unit (Option JVal)
  | JVal.nullv, _ => Except.error ()
  | JVal.obj fields, k => Except.ok (JsMap.lookup k fields)
  | _, _ => Except.ok none

/-- Property access that cannot throw, used after the type switch has already
established the message is an object. -/
def fieldOrUndefined (v : JVal) (k : String) : Option JVal :=
  match v with
  | JVal.obj fields => JsMap.lookup k fields
  | _ => none

/-- Display of a JS value inside a template literal, used only for the text of
the unknown-type error; the arr and obj renderings are approximated (no claim
depends on this text). -/
def jsDisplay : JVal → String
  | JVal.nullv => "null"
  | JVal.bool b => if b then "true" else "false"
  | JVal.num n => toString n
  | JVal.str s => s
  | JVal.arr _ => ""
  | JVal.obj _ => "[object Object]"

/-- Display of a possibly-undefined JS value inside a template literal. -/
def jsDisplayOpt : Option JVal → String
  | none => "undefined"
  | some v => jsDisplay v

/-- The outcome of JSON.parse on a raw incoming frame. -/
inductive IncomingData where
  | malformed
  | value (v : JVal)

/-- WebSocketHub.handleMessage: parse failure (or the type access throwing on
null) is caught and answered with one Invalid-message-format error; then the
switch on message.type dispatches the three known types, every other value
falling to the unknown-type error. -/
def handleMessage (now : Nat) (c : ConnectionState) (data : IncomingData) :
    ConnectionState × List ServerMsg :=
  match data with
  | IncomingData.malformed => (c, sendError c "Invalid message format")
  | IncomingData.value v =>
    match jsField v "type" with
    | Except.error _ => (c, sendError c "Invalid message format")
    | Except.ok tf =>
      match tf with
      | some (JVal.str t) =>
          if t = "subscribe" then handleSubscribe c (fieldOrUndefined v "projectIds")
          else if t = "unsubscribe" then handleUnsubscribe c (fieldOrUndefined v "projectIds")
          else if t = "ping" then handlePing now c
          else (c, sendError c ("Unknown message type: " ++ t))
      | _ => (c, sendError c ("Unknown message type: " ++ jsDisplayOpt tf))

/-- Whether an incoming frame parses and carries one of the three recognized
message types. -/
def isRecognized (data : IncomingData) : Bool :=
  match data with
  | IncomingData.malformed => false
  | IncomingData.value v =>
    match jsField v "type" with
    | Except.error _ => false
    | Except.ok (some (JVal.str t)) =>
        t == "subscribe" || t == "unsubscribe" || t == "ping"
    | Except.ok _ => false

/-- The hub's view of one incoming frame: the registry is the Map of
connections keyed by connectionId; the handler closure reads and mutates the
one connection the frame arrived on, and the replies go to that connection. -/
def hubHandleMessage (now : Nat) (hub : List (String × ConnectionState))
    (cid : String) (data : IncomingData) :
    List (String × ConnectionState) × List (String × ServerMsg) :=
  match JsMap.lookup cid hub with
  | none => (hub, [])
  | some c =>
      let r := handleMessage now c data
      (JsMap.set cid r.1 hub, r.2.map (fun m => (cid, m)))

/-- The broadcast condition of broadcastToProject: subscribed to the project
and transport currently OPEN. -/
def shouldDeliver (pid : String) (c : ConnectionState) : Bool :=
  c.subscribedProjects.contains pid && c.readyStateOpen

/-- WebSocketHub.broadcastToProject: iterate all registered connections and
push the serialized message to each satisfying the broadcast condition. -/
def broadcastToProject (hub : List (String × ConnectionState)) (pid : String)
    (msg : ServerMsg) : List (String × ServerMsg) :=
  hub.filterMap (fun e => if shouldDeliver pid e.2 then some (e.1, msg) else none)

/-- The file:change message the hub's file-watcher handler builds from a
ChangeEvent. -/
def fileChangeMessage (ev : FileChangeEvent) : ServerMsg :=
  ServerMsg.fileChange ev.projectId ev.fileType ev.path ev.event

/-- WebSocketHub.connectToFileWatcher's change handler: build the file:change
message and broadcast it to the event's project. -/
def fileWatcherHandler (hub : List (String × ConnectionState)) (ev : FileChangeEvent) :
    List (String × ServerMsg) :=
  broadcastToProject hub ev.projectId (fileChangeMessage ev)

/-! ## The heartbeat monitor -/

/-- Heartbeat interval in milliseconds (30 seconds). -/
def HEARTBEAT_INTERVAL : Nat := 30000

/-- Connection timeout: if no pong is received within this time, the
connection is closed (35 seconds). -/
def CONNECTION_TIMEOUT : Nat := 35000

/-- The heartbeat-relevant slice of one connection's state; terminated records
that ws.terminate ran and handleDisconnect removed the registry entry. -/
structure HBState where
  isAlive : Bool
  lastPing : Nat
  terminated : Bool
deriving DecidableEq, Repr

/-- The event-loop callbacks that touch heartbeat state: an interval tick, a
transport pong, an explicit client ping message, a transport close or error. -/
inductive HBEvent where
  | tick (now : Nat)
  | pong (now : Nat)
  | clientPing (now : Nat)
  | close
deriving DecidableEq, Repr

/-- One heartbeat step.  A tick terminates a connection that is marked
not-alive and whose last liveness proof is more than CONNECTION_TIMEOUT old
(Date.now() is monotone, so the JS subtraction is the Nat one); otherwise it
marks the connection not-alive and sends a probe.  Pong receipt and a client
ping refresh the liveness proof.  Events after termination are dropped, as
handleDisconnect has removed the registry entry. -/
def hbStep (c : HBState) : HBEvent → HBState
  | HBEvent.tick now =>
      if c.terminated then c
      else if c.isAlive = false ∧ CONNECTION_TIMEOUT < now - c.lastPing then
        { c with terminated := true }
      else
        { c with isAlive := false }
  | HBEvent.pong now =>
      if c.terminated then c else { c with isAlive := true, lastPing := now }
  | HBEvent.clientPing now =>
      if c.terminated then c else { c with isAlive := true, lastPing := now }
  | HBEvent.close => { c with terminated := true }

/-- Run the heartbeat state machine over a trace of callbacks. -/
def hbRun (c : HBState) (evs : List HBEvent) : HBState :=
  evs.foldl hbStep c

/-- Whether the connection answers every liveness probe in time along a
trace: every tick finds it (still or again) marked alive. -/
def answersEveryProbe (c : HBState) : List HBEvent → Bool
  | [] => true
  | e :: rest =>
      (match e with
       | HBEvent.tick _ => c.isAlive
       | _ => true) && answersEveryProbe (hbStep c e) rest

/-- How many probe cycles the connection misses along a trace: a cycle is
missed when a tick finds the unterminated connection still marked not-alive,
i.e. the probe sent at the previous tick got no answer. -/
def missedCycles (c : HBState) : List HBEvent → Nat
  | [] => 0
  | e :: rest =>
      (match e with
       | HBEvent.tick _ =>
           if c.terminated = false ∧ c.isAlive = false then 1 else 0
       | _ => 0) + missedCycles (hbStep c e) rest

/-- The heartbeat trace refuting claim C3: last liveness proof at 29000 ms,
ticks on the 30000 ms interval grid.  The connection misses exactly one probe
cycle (the probe of the 30000 tick, first observed missed at the 60000 tick)
and then answers again. -/
def hbTrace : List HBEvent :=
  [HBEvent.tick 30000, HBEvent.tick 60000, HBEvent.pong 60001,
   HBEvent.tick 90000, HBEvent.pong 90001, HBEvent.tick 120000]

/-- The connection state the counterexample trace starts from. -/
def hbStart : HBState :=
  ⟨true, 29000, false⟩

/-- C3 amended: a connection that answers every liveness probe before the
next heartbeat tick (and is not closed by the transport) is never terminated;
and a heartbeat tick terminates an unterminated connection exactly when the
connection is marked not-alive (it already missed a full probe cycle) and
more than the fixed global CONNECTION_TIMEOUT has elapsed since its last
liveness proof — so it is never terminated before the timeout elapses, but
termination happens at the first such tick rather than at the instant of
timeout elapse. -/
theorem heartbeat_amended :
    (∀ (c : HBState) (evs : List HBEvent), c.terminated = false →
        answersEveryProbe c evs = true → HBEvent.close ∉ evs →
        (hbRun c evs).terminated = false) ∧
    (∀ (c : HBState) (now : Nat), c.terminated = false →
        ((hbStep c (HBEvent.tick now)).terminated = true ↔
          c.isAlive = false ∧ CONNECTION_TIMEOUT < now - c.lastPing)) := by
  constructor
  · intro c evs
    induction evs generalizing c with
    | nil =>
      intro ht _ _
      exact ht
    | cons e rest ih =>
      intro ht ha hc
      have hcr : HBEvent.close ∉ rest := fun h => hc (List.mem_cons_of_mem _ h)
      cases e with
      | tick now =>
        simp only [answersEveryProbe, Bool.and_eq_true] at ha
        have hcond : ¬ (c.isAlive = false ∧ CONNECTION_TIMEOUT < now - c.lastPing) := by
          intro hcond
          rw [hcond.1] at ha
          exact Bool.false_ne_true ha.1
        have hstep : (hbStep c (HBEvent.tick now)).terminated = false := by
          simp [hbStep, ht, hcond]
        exact ih _ hstep ha.2 hcr
      | pong now =>
        simp only [answersEveryProbe, Bool.true_and] at ha
        have hstep : (hbStep c (HBEvent.pong now)).terminated = false := by
          simp [hbStep, ht]
        exact ih _ hstep ha hcr
      | clientPing now =>
        simp only [answersEveryProbe, Bool.true_and] at ha
        have hstep : (hbStep c (HBEvent.clientPing now)).terminated = false := by
          simp [hbStep, ht]
        exact ih _ hstep ha hcr
      | close => exact absurd (List.mem_cons_self _ _) hc
  · intro c now ht
    simp only [hbStep, ht]
    by_cases hcond : c.isAlive = false ∧ CONNECTION_TIMEOUT < now - c.lastPing
    · simp [hcond]
    · simp [hcond, ht]

/-- Counterexample to C3 as stated: with ticks on the 30000 ms grid and the
last liveness proof at 29000 ms, the connection misses exactly one probe
cycle, the global timeout (35000 ms) since its last liveness proof elapses at
64000 ms, ticks at 90000 and 120000 ms pass, and yet the connection is never
terminated — because at the 60000 ms tick only 31000 ms had elapsed and the
connection answered the next probe. -/
theorem heartbeat_one_missed_cycle_survives :
    missedCycles hbStart hbTrace = 1 ∧
    (hbRun hbStart hbTrace).terminated = false ∧
    hbStart.lastPing + CONNECTION_TIMEOUT < 90000 ∧
    HBEvent.tick 90000 ∈ hbTrace := by
  refine ⟨by decide, by decide, by decide, by decide⟩

/-- Witness for the amended heartbeat theorem: a concrete always-answering
trace is never terminated, and a concrete stale tick terminates exactly when
the guard holds. -/
theorem heartbeat_amended_witness :
    (hbRun ⟨true, 0, false⟩ [HBEvent.tick 30000, HBEvent.pong 30001,
        HBEvent.tick 60000, HBEvent.pong 60002]).terminated = false ∧
    ((hbStep ⟨false, 4000, false⟩ (HBEvent.tick 40000)).terminated = true ↔
        (false = false ∧ CONNECTION_TIMEOUT < 40000 - 4000)) :=
  ⟨heartbeat_amended.1 ⟨true, 0, false⟩ _ (by decide) (by decide) (by decide),
   heartbeat_amended.2 ⟨false, 4000, false⟩ 40000 (by decide)⟩


theorem mem_setAdd (acc : List String) (t s : String) :
    s ∈ setAdd acc t ↔ s ∈ acc ∨ s = t := by
  unfold setAdd
  by_cases h : t ∈ acc
  · simp only [if_pos h]
    constructor
    · exact Or.inl
    · rintro (hs | rfl)
      · exact hs
      · exact h
  · simp [if_neg h]

theorem mem_subFold (subs : List String) (xs : List JVal) (s : String) :
    s ∈ xs.foldl (fun acc v =>
        match v with
        | JVal.str t => setAdd acc t
        | _ => acc) subs ↔ s ∈ subs ∨ JVal.str s ∈ xs := by
  induction xs generalizing subs with
  | nil => simp
  | cons x rest ih =>
    cases x with
    | str t => simp [List.foldl_cons, ih, mem_setAdd, or_assoc]
    | nullv => simp [List.foldl_cons, ih]
    | bool b => simp [List.foldl_cons, ih]
    | num n => simp [List.foldl_cons, ih]
    | arr ys => simp [List.foldl_cons, ih]
    | obj fs => simp [List.foldl_cons, ih]

theorem subFold_fixed (subs : List String) (xs : List JVal)
    (h : ∀ s, JVal.str s ∈ xs → s ∈ subs) :
    xs.foldl (fun acc v =>
        match v with
        | JVal.str t => setAdd acc t
        | _ => acc) subs = subs := by
  induction xs generalizing subs with
  | nil => rfl
  | cons x rest ih =>
    cases x with
    | str t =>
      have ht : t ∈ subs := h t (List.mem_cons_self _ _)
      have hsa : setAdd subs t = subs := by simp [setAdd, ht]
      show List.foldl _ (setAdd subs t) rest = subs
      rw [hsa]
      exact ih subs (fun s hs => h s (List.mem_cons_of_mem _ hs))
    | nullv => exact ih subs (fun s hs => h s (List.mem_cons_of_mem _ hs))
    | bool b => exact ih subs (fun s hs => h s (List.mem_cons_of_mem _ hs))
    | num n => exact ih subs (fun s hs => h s (List.mem_cons_of_mem _ hs))
    | arr ys => exact ih subs (fun s hs => h s (List.mem_cons_of_mem _ hs))
    | obj fs => exact ih subs (fun s hs => h s (List.mem_cons_of_mem _ hs))

/-- Array.isArray on a possibly-undefined JS value. -/
def isJsArray : Option JVal → Bool
  | some (JVal.arr _) => true
  | _ => false

/-- The validation predicate claim C4 asserts (written from the spec's words,
for comparison with the code): projectIds is an array all of whose elements
are strings. -/
def isStringArray : Option JVal → Bool
  | some (JVal.arr xs) => xs.all (fun v =>
      match v with
      | JVal.str _ => true
      | _ => false)
  | _ => false

/-- C4 amended: handleSubscribe validates only that projectIds is an array
(Array.isArray), not that its elements are strings.  On a non-array it replies
with a single error (when the transport is open) and leaves the subscription
set untouched; on an array it unions exactly the string elements into the set
(idempotently: subscribing to the same array again changes nothing) and
replies with the full current subscription list. -/
theorem handleSubscribe_amended :
    (∀ (c : ConnectionState) (pids : Option JVal), isJsArray pids = false →
        handleSubscribe c pids = (c, sendError c "projectIds must be an array")) ∧
    (∀ (c : ConnectionState) (xs : List JVal),
        (handleSubscribe c (some (JVal.arr xs))).2
          = [ServerMsg.subscribed
              (handleSubscribe c (some (JVal.arr xs))).1.subscribedProjects]) ∧
    (∀ (c : ConnectionState) (xs : List JVal) (s : String),
        s ∈ (handleSubscribe c (some (JVal.arr xs))).1.subscribedProjects ↔
          s ∈ c.subscribedProjects ∨ JVal.str s ∈ xs) ∧
    (∀ (c : ConnectionState) (xs : List JVal),
        handleSubscribe (handleSubscribe c (some (JVal.arr xs))).1 (some (JVal.arr xs))
          = ((handleSubscribe c (some (JVal.arr xs))).1,
             [ServerMsg.subscribed
               (handleSubscribe c (some (JVal.arr xs))).1.subscribedProjects])) := by
  refine ⟨?_, ?_, ?_, ?_⟩
  · intro c pids h
    cases pids with
    | none => rfl
    | some v =>
      cases v with
      | arr xs => simp [isJsArray] at h
      | nullv => rfl
      | bool b => rfl
      | num n => rfl
      | str s => rfl
      | obj fs => rfl
  · intro c xs
    rfl
  · intro c xs s
    simp only [handleSubscribe]
    exact mem_subFold c.subscribedProjects xs s
  · intro c xs
    simp only [handleSubscribe]
    rw [subFold_fixed]
    intro s hs
    exact (mem_subFold c.subscribedProjects xs s).mpr (Or.inr hs)

/-- Witness for the amended subscribe theorem: the spec's own scenario, a
subscribe whose projectIds is the string "oops". -/
theorem handleSubscribe_amended_witness :
    isJsArray (some (JVal.str "oops")) = false ∧
    handleSubscribe ⟨"c1", [], 0, true, true⟩ (some (JVal.str "oops"))
      = (⟨"c1", [], 0, true, true⟩,
         sendError ⟨"c1", [], 0, true, true⟩ "projectIds must be an array") :=
  ⟨rfl, handleSubscribe_amended.1 ⟨"c1", [], 0, true, true⟩ (some (JVal.str "oops")) rfl⟩

/-- Counterexample to C4 as stated: an array containing a non-string is not
an array of strings, yet handleSubscribe replies with a subscribed
confirmation (not an error) and grows the subscription set. -/
theorem subscribe_nonstring_array_cex :
    isStringArray (some (JVal.arr [JVal.num 5, JVal.str "p1"])) = false ∧
    handleSubscribe ⟨"c1", [], 0, true, true⟩ (some (JVal.arr [JVal.num 5, JVal.str "p1"]))
      = (⟨"c1", ["p1"], 0, true, true⟩, [ServerMsg.subscribed ["p1"]]) :=
  ⟨rfl, rfl⟩

/-- C10: a subscribe message whose projectIds is an array containing
non-string elements does not produce an error reply: the non-string elements
are silently skipped, every string element is added to the subscription set,
and a subscribed confirmation listing the resulting full subscription set is
sent. -/
theorem handleSubscribe_skips_nonstrings (c : ConnectionState) (xs : List JVal) :
    (handleSubscribe c (some (JVal.arr xs))).2
      = [ServerMsg.subscribed (handleSubscribe c (some (JVal.arr xs))).1.subscribedProjects] ∧
    (∀ m ∈ (handleSubscribe c (some (JVal.arr xs))).2, ∀ msg, m ≠ ServerMsg.error msg) ∧
    (∀ s : String, s ∈ (handleSubscribe c (some (JVal.arr xs))).1.subscribedProjects ↔
        s ∈ c.subscribedProjects ∨ JVal.str s ∈ xs) := by
  refine ⟨rfl, ?_, ?_⟩
  · intro m hm msg
    simp only [handleSubscribe, List.mem_singleton] at hm
    subst hm
    intro hcontra
    exact ServerMsg.noConfusion hcontra
  · intro s
    simp only [handleSubscribe]
    exact mem_subFold c.subscribedProjects xs s

theorem broadcast_zero_of_not_mem (hub : List (String × ConnectionState))
    (pid cid : String) (msg : ServerMsg) (h : cid ∉ JsMap.keys hub) :
    List.countP (fun x => x.1 == cid) (broadcastToProject hub pid msg) = 0 := by
  induction hub with
  | nil => rfl
  | cons e rest ih =>
    simp only [JsMap.keys, List.map_cons, List.mem_cons] at h
    push_neg at h
    simp only [broadcastToProject, List.filterMap_cons]
    by_cases hd : shouldDeliver pid e.2
    · rw [if_pos hd, List.countP_cons]
      have hk : ((e.1, msg).1 == cid) = false := by
        simp
        exact fun hh => h.1 hh.symm
      rw [hk]
      simp only [Bool.false_eq_true, if_false, Nat.add_zero]
      exact ih h.2
    · rw [if_neg hd]
      exact ih h.2

/-- C7: an incoming message that fails to parse as JSON (or whose parsed
value makes the type access throw) or whose type is not one of
subscribe/unsubscribe/ping produces exactly one error reply, addressed to
that connection only; the registry — this connection's subscription set and
liveness state included, and every other connection's state — is unchanged. -/
theorem unrecognized_message_isolated (now : Nat) (hub : List (String × ConnectionState))
    (cid : String) (c : ConnectionState) (data : IncomingData)
    (hrec : isRecognized data = false)
    (hc : JsMap.lookup cid hub = some c)
    (hopen : c.readyStateOpen = true) :
    (hubHandleMessage now hub cid data).1 = hub ∧
    (∃ msg, (hubHandleMessage now hub cid data).2 = [(cid, ServerMsg.error msg)]) := by
  have key : (handleMessage now c data).1 = c ∧
      ∃ msg, (handleMessage now c data).2 = [ServerMsg.error msg] := by
    cases data with
    | malformed =>
      exact ⟨rfl, "Invalid message format", by simp [handleMessage, sendError, hopen]⟩
    | value v =>
      cases v with
      | nullv =>
        exact ⟨rfl, "Invalid message format",
          by simp [handleMessage, jsField, sendError, hopen]⟩
      | bool b =>
        exact ⟨rfl, "Unknown message type: " ++ jsDisplayOpt none,
          by simp [handleMessage, jsField, sendError, hopen]⟩
      | num n =>
        exact ⟨rfl, "Unknown message type: " ++ jsDisplayOpt none,
          by simp [handleMessage, jsField, sendError, hopen]⟩
      | str s =>
        exact ⟨rfl, "Unknown message type: " ++ jsDisplayOpt none,
          by simp [handleMessage, jsField, sendError, hopen]⟩
      | arr ys =>
        exact ⟨rfl, "Unknown message type: " ++ jsDisplayOpt none,
          by simp [handleMessage, jsField, sendError, hopen]⟩
      | obj fields =>
        rcases hl : JsMap.lookup "type" fields with _ | jv
        · exact ⟨by simp [handleMessage, jsField, hl],
            "Unknown message type: " ++ jsDisplayOpt none,
            by simp [handleMessage, jsField, hl, sendError, hopen]⟩
        · cases jv with
          | str t =>
            simp only [isRecognized, jsField, hl, Bool.or_eq_false_iff,
              beq_eq_false_iff_ne, ne_eq] at hrec
            obtain ⟨⟨h1, h2⟩, h3⟩ := hrec
            refine ⟨by simp [handleMessage, jsField, hl, h1, h2, h3],
              "Unknown message type: " ++ t,
              by simp [handleMessage, jsField, hl, h1, h2, h3, sendError, hopen]⟩
          | nullv =>
            exact ⟨by simp [handleMessage, jsField, hl],
              "Unknown message type: " ++ jsDisplayOpt (some JVal.nullv),
              by simp [handleMessage, jsField, hl, sendError, hopen]⟩
          | bool b =>
            exact ⟨by simp [handleMessage, jsField, hl],
              "Unknown message type: " ++ jsDisplayOpt (some (JVal.bool b)),
              by simp [handleMessage, jsField, hl, sendError, hopen]⟩
          | num n =>
            exact ⟨by simp [handleMessage, jsField, hl],
              "Unknown message type: " ++ jsDisplayOpt (some (JVal.num n)),
              by simp [handleMessage, jsField, hl, sendError, hopen]⟩
          | arr ys =>
            exact ⟨by simp [handleMessage, jsField, hl],
              "Unknown message type: " ++ jsDisplayOpt (some (JVal.arr ys)),
              by simp [handleMessage, jsField, hl, sendError, hopen]⟩
          | obj gs =>
            exact ⟨by simp [handleMessage, jsField, hl],
              "Unknown message type: " ++ jsDisplayOpt (some (JVal.obj gs)),
              by simp [handleMessage, jsField, hl, sendError, hopen]⟩
  obtain ⟨hcu, msg, hmsg⟩ := key
  constructor
  · simp only [hubHandleMessage, hc]
    rw [hcu]
    exact JsMap.set_lookup_self cid c hub hc
  · refine ⟨msg, ?_⟩
    simp only [hubHandleMessage, hc]
    rw [hmsg]
    rfl

/-- Witness for the unrecognized-message theorem: a concrete one-connection
hub receiving a message of type bogus. -/
theorem unrecognized_message_isolated_witness :
    (hubHandleMessage 0 [("c1", ⟨"c1", ["p"], 0, true, true⟩)] "c1"
        (IncomingData.value (JVal.obj [("type", JVal.str "bogus")]))).1
      = [("c1", ⟨"c1", ["p"], 0, true, true⟩)] ∧
    (∃ msg, (hubHandleMessage 0 [("c1", ⟨"c1", ["p"], 0, true, true⟩)] "c1"
        (IncomingData.value (JVal.obj [("type", JVal.str "bogus")]))).2
      = [("c1", ServerMsg.error msg)]) :=
  unrecognized_message_isolated 0 [("c1", ⟨"c1", ["p"], 0, true, true⟩)] "c1"
    ⟨"c1", ["p"], 0, true, true⟩
    (IncomingData.value (JVal.obj [("type", JVal.str "bogus")]))
    (by decide) rfl rfl

theorem broadcast_count (hub : List (String × ConnectionState)) (pid cid : String)
    (msg : ServerMsg) (c : ConnectionState)
    (hnd : (JsMap.keys hub).Nodup) (hmem : (cid, c) ∈ hub) :
    List.countP (fun x => x.1 == cid) (broadcastToProject hub pid msg)
      = (if shouldDeliver pid c then 1 else 0) := by
  induction hub with
  | nil => simp at hmem
  | cons e rest ih =>
    obtain ⟨k, v⟩ := e
    simp only [JsMap.keys, List.map_cons, List.nodup_cons] at hnd
    rcases List.mem_cons.mp hmem with heq | hmem'
    · injection heq with hk hv
      subst hk
      subst hv
      have hzero : List.countP (fun x => x.1 == cid) (broadcastToProject rest pid msg) = 0 := by
        apply broadcast_zero_of_not_mem
        exact hnd.1
      simp only [broadcastToProject, List.filterMap_cons]
      by_cases hd : shouldDeliver pid c
      · rw [if_pos hd, if_pos hd, List.countP_cons]
        simp only [beq_self_eq_true, if_pos]
        rw [show List.countP (fun x => x.1 == cid)
            (List.filterMap (fun e => if shouldDeliver pid e.2 = true
              then some (e.1, msg) else none) rest) = 0 from hzero]
      · rw [if_neg hd, if_neg hd]
        exact hzero
    · have hkne : k ≠ cid := by
        intro hkk
        subst hkk
        exact hnd.1 (List.mem_map_of_mem Prod.fst hmem')
      simp only [broadcastToProject, List.filterMap_cons]
      by_cases hd : shouldDeliver pid v
      · rw [if_pos hd, List.countP_cons]
        have hk : ((k, msg).1 == cid) = false := by
          simp [hkne]
        rw [hk]
        simp only [Bool.false_eq_true, if_false, Nat.add_zero]
        exact ih hnd.2 hmem'
      · rw [if_neg hd]
        exact ih hnd.2 hmem'

/-- C2: for a ChangeEvent delivered from the file watcher, the broadcast
router pushes exactly one file:change message to every registered connection
that is subscribed to the event's projectId and whose transport is OPEN
(count one per such connection, zero for every other), every pushed message
carries the event's projectId, fileType, path and eventKind, and the
delivery decision depends only on the membership extension of the
subscription set — not on the order subscriptions were made in. -/
theorem broadcast_exactly_to_subscribed (hub : List (String × ConnectionState))
    (ev : FileChangeEvent) (cid : String) (c : ConnectionState)
    (hnd : (JsMap.keys hub).Nodup) (hmem : (cid, c) ∈ hub) :
    List.countP (fun x => x.1 == cid) (fileWatcherHandler hub ev)
        = (if shouldDeliver ev.projectId c then 1 else 0) ∧
    (∀ x ∈ fileWatcherHandler hub ev, x.2 = fileChangeMessage ev) ∧
    (∀ c' : ConnectionState,
        (∀ s, s ∈ c.subscribedProjects ↔ s ∈ c'.subscribedProjects) →
        c.readyStateOpen = c'.readyStateOpen →
        shouldDeliver ev.projectId c = shouldDeliver ev.projectId c') := by
  refine ⟨broadcast_count hub ev.projectId cid (fileChangeMessage ev) c hnd hmem, ?_, ?_⟩
  · intro x hx
    simp only [fileWatcherHandler, broadcastToProject, List.mem_filterMap] at hx
    obtain ⟨a, ha, hfa⟩ := hx
    by_cases hd : shouldDeliver ev.projectId a.2
    · rw [if_pos hd] at hfa
      injection hfa with hfa'
      rw [← hfa']
    · rw [if_neg hd] at hfa
      exact Option.noConfusion hfa
  · intro c' hsub hopen
    unfold shouldDeliver
    rw [hopen]
    congr 1
    rw [Bool.eq_iff_iff]
    simp [hsub ev.projectId]

/-- Witness for the broadcast theorem: a two-connection hub in which only the
first connection is subscribed to the event's project. -/
theorem broadcast_exactly_to_subscribed_witness :
    List.countP (fun x => x.1 == "a")
        (fileWatcherHandler
          [("a", ⟨"a", ["p1"], 0, true, true⟩), ("b", ⟨"b", [], 0, true, true⟩)]
          ⟨"p1", FileType.activity, "f.log", EventKind.change⟩)
      = (if shouldDeliver
            (FileChangeEvent.projectId ⟨"p1", FileType.activity, "f.log", EventKind.change⟩)
            (⟨"a", ["p1"], 0, true, true⟩ : ConnectionState) then 1 else 0) :=
  (broadcast_exactly_to_subscribed
    [("a", ⟨"a", ["p1"], 0, true, true⟩), ("b", ⟨"b", [], 0, true, true⟩)]
    ⟨"p1", FileType.activity, "f.log", EventKind.change⟩ "a" ⟨"a", ["p1"], 0, true, true⟩
    (by decide) (List.mem_cons_self _ _)).1


end Ralph
